import Mathlib

/-!
# Verification of the hermes messaging management service

A shallow embedding of the service's two source files:

* the `models` package (MongoDB communication layer): `AddProfileACL`,
  `AddGroupConversation`, `AuthorizePublishing`, `UpdateProfilesWithGroupACL`,
  `UpdatePassHash`, backed by the `vmq_acl_auth` and `groupConversations`
  collections;
* the `router` package (HTTP handlers): `AddVerneMQACL`,
  `AddGroupConversation`, `GetMappingForUsers`.

The MongoDB collections are modelled as lists of records; `UpdateOne` updates
the first record matching the `client_id` filter and is a silent no-op when no
record matches (standard driver semantics: a zero-match update is not an
error).  External collaborators that live outside the two source files (the
token-format checker, `auth.CheckAuthentication`, the Redis identity cache,
JSON body decoding, and fresh group-ID generation) are passed to the handler
embeddings as inputs, so the handlers' own control flow is what is being
verified.
-/

set_option autoImplicit false

namespace Hermes

/-- A VerneMQ ACL document of the `vmq_acl_auth` collection.
Field names follow the BSON keys used by the source
(`client_id`, `passhash`, `publish_acl`, `subscribe_acl`); the ACL arrays hold
topic patterns.  The Go struct itself (`models.VerneMQACL`) is defined outside
the two source files; its fields are taken from the spec's ACLRecord
`{ clientID, passwordHash, publishACL, subscribeACL }` plus the username the
constructor receives. -/
structure VerneMQACL where
  client_id : String
  username : String
  passhash : String
  publish_acl : List String
  subscribe_acl : List String
deriving DecidableEq, Repr

/-- A group conversation document of the `groupConversations` collection. -/
structure GroupConversation where
  groupConversationID : String
  name : String
  members : List String
deriving DecidableEq, Repr

/-- Errors surfaced by the document store: `conflict` is the duplicate-key
error of an insert that collides with an existing `client_id`. -/
inductive DBError where
  | conflict
deriving DecidableEq, Repr

/-- The `vmq_acl_auth` collection: one document per client. -/
abbrev Collection := List VerneMQACL

/-- Modelled from the spec: `GroupConversationTopicPath`, the
`<groupTopicPrefix>/` constant prepended to every group topic pattern, is
defined in a model file outside the two source files; the spec fixes only its
role, not its value, so an arbitrary concrete prefix is used.  All theorems
refer to it symbolically. -/
def GroupConversationTopicPath : String := "group/"

/-- Modelled from the spec: `models.NewVerneMQACL` (defined outside the two
source files) builds the default per-client ACL record seeded on a client's
first connection.  The spec does not give the default topic patterns, so the
ACL arrays start empty; no claim depends on their initial contents. -/
def NewVerneMQACL (clientID username password : String) : VerneMQACL :=
  { client_id := clientID
    username := username
    passhash := password
    publish_acl := []
    subscribe_acl := [] }

/-- Modelled from the spec: `models.NewGroupConversation` (defined outside the
two source files) builds a group conversation record with a freshly generated
`groupConversationID`; the generated ID is taken as an input here. -/
def NewGroupConversation (generatedID : String) (name : String)
    (members : List String) : GroupConversation :=
  { groupConversationID := generatedID, name := name, members := members }

/-- Modelled from the spec: `InsertOne` on the `vmq_acl_auth` collection fails
with a duplicate-key `Conflict` when a document with the same `client_id`
already exists (the spec's `CreateACL` contract: "fails with `Conflict` if a
record for clientID already exists"); the uniqueness index enforcing this
lives in the database, not in the two source files.  A successful insert
appends the document. -/
def insertOne (coll : Collection) (doc : VerneMQACL) : Except DBError Collection :=
  if ∃ r ∈ coll, r.client_id = doc.client_id then .error .conflict
  else .ok (coll ++ [doc])

/-- `UpdateOne` with filter `client_id = uid`: rewrite the first matching
document with `f`; silently leave the collection unchanged when no document
matches.  Driver infrastructure failures are not modelled. -/
def updateOne (coll : Collection) (uid : String) (f : VerneMQACL → VerneMQACL) :
    Collection :=
  match coll with
  | [] => []
  | r :: rs => if r.client_id = uid then f r :: rs else r :: updateOne rs uid f

namespace models

/-- `models.AddProfileACL`: marshal the ACL record and insert it into the
VerneMQ ACL collection (marshalling of a well-formed record cannot fail in the
model). -/
def AddProfileACL (coll : Collection) (verneMQACL : VerneMQACL) :
    Except DBError Collection :=
  insertOne coll verneMQACL

/-- `models.AddGroupConversation`: marshal the group conversation and insert
it into the group conversation collection.  This collection has no uniqueness
constraint; `insertFails` models an infrastructure failure of the insert (the
error the source returns verbatim), in which case nothing is written. -/
def AddGroupConversation (insertFails : Bool)
    (groupColl : List GroupConversation) (groupConversation : GroupConversation) :
    Except Unit (List GroupConversation) :=
  if insertFails then .error () else .ok (groupColl ++ [groupConversation])

/-- `models.AuthorizePublishing`: `UpdateOne` on `client_id = userID` with
`$push` of `topic` onto `publish_acl`.  A zero-match update is a silent no-op;
only driver infrastructure failures (not modelled) make the source return an
error, so the model always returns `.ok`. -/
def AuthorizePublishing (coll : Collection) (userID topic : String) :
    Except DBError Collection :=
  .ok (updateOne coll userID
    (fun r => { r with publish_acl := r.publish_acl ++ [topic] }))

/-- The update document `UpdateProfilesWithGroupACL` issues for one member:
`$push` the pattern `GroupConversationTopicPath ++ groupID ++ "/" ++ userID`
onto `publish_acl` and the pattern
`GroupConversationTopicPath ++ groupID ++ "/+"` onto `subscribe_acl`. -/
def pushGroupACL (groupID userID : String) (r : VerneMQACL) : VerneMQACL :=
  { r with
    publish_acl :=
      r.publish_acl ++ [GroupConversationTopicPath ++ groupID ++ "/" ++ userID]
    subscribe_acl :=
      r.subscribe_acl ++ [GroupConversationTopicPath ++ groupID ++ "/+"] }

/-- `models.UpdateProfilesWithGroupACL`: for every member of the group, in
member-list order, `UpdateOne` on `client_id = userID` with the two `$push`
operations of `pushGroupACL`.  Each update is a silent no-op on zero matches;
only unmodelled driver failures produce the error branch of the source. -/
def UpdateProfilesWithGroupACL (coll : Collection) (gc : GroupConversation) :
    Except DBError Collection :=
  .ok (gc.members.foldl
    (fun c uid => updateOne c uid (pushGroupACL gc.groupConversationID uid)) coll)

/-- `models.UpdatePassHash`: `UpdateOne` on `client_id = userID` with
`$set passhash = newPasshash`.  A zero-match update is a silent no-op and is
not an error. -/
def UpdatePassHash (coll : Collection) (userID newPasshash : String) :
    Except DBError Collection :=
  .ok (updateOne coll userID (fun r => { r with passhash := newPasshash }))

end models

/-- The `logruswrapper` status codes the handlers use; the library defines
them as distinct strings, modelled here as distinct constructors. -/
inductive Code where
  | invalidToken
  | updated
  | alreadyExists
  | invalidJSON
  | success
deriving DecidableEq, Repr

/-- What a handler does with the response: return an error (which the
`CustomHandle` wrapper turns into an error response carrying the code), or
write a success response with a payload. -/
inductive HandlerOutcome (α : Type) where
  | failure (code : Code)
  | success (payload : α)
deriving DecidableEq, Repr

/-- The identity the authentication check yields
(`auth.CheckAuthentication`'s `MQTTAuthInfos`). -/
structure MQTTAuthInfos where
  clientID : String
  username : String
  password : String
deriving DecidableEq, Repr

/-- Outcome of one Redis lookup of a member handle in the handlers'
resolution loops (the `Exists` / `HGet` pair on key `mapping:<handle>`):
an infrastructure error, a missing mapping, or the stored
`internalWaveUserID`. -/
inductive RedisResult where
  | err
  | missing
  | found (internalWaveUserID : String)
deriving DecidableEq, Repr

/-- `string(bytes)` of an `HGet` result as `GetMappingForUsers` computes it:
an error or a missing field reads back as the empty string. -/
def RedisResult.asString : RedisResult → String
  | .err => ""
  | .missing => ""
  | .found v => v

/-- Request body of `AddGroupConversation` (`utils.GroupConversationBody`,
defined outside the two source files; its `Name` and `Members` fields are the
ones the handler reads). -/
structure GroupConversationBody where
  name : String
  members : List String
deriving DecidableEq, Repr

/-- Request body of `GetMappingForUsers` (`utils.MappingRequestBody`, defined
outside the two source files; the handler reads its `UserIDs` field). -/
structure MappingRequestBody where
  userIDs : List String
deriving DecidableEq, Repr

/-- An internal-ID mapping entry of the `GetMappingForUsers` response
(`models.Mapping`, defined outside the two source files; the handler fills
its `OriginalUserID` and `InternalWaveUserID` fields). -/
structure Mapping where
  originalUserID : String
  internalWaveUserID : String
deriving DecidableEq, Repr

namespace router

/-- `router.AddVerneMQACL`: check the token format, run
`auth.CheckAuthentication`, bail out with `CodeUpdated` when the token was
updated and `CodeAlreadyExists` when it was cached, otherwise build the
default ACL record with `NewVerneMQACL` and store it with `AddProfileACL`;
any storage error is returned as `CodeInvalidToken`, success writes the
clientID in the response.

Inputs standing for external collaborators: `isTokenValid` is the result of
`checkers.IsTokenValid` (its error is returned verbatim, modelled as a code),
`checkAuthentication` the result of `auth.CheckAuthentication` as
`(MQTTAuthInfos, wasCached, wasTokenUpdated)` or an error.  Returns the
handler outcome together with the resulting ACL collection. -/
def AddVerneMQACL (isTokenValid : Except Code Bool)
    (checkAuthentication : Except Unit (MQTTAuthInfos × Bool × Bool))
    (coll : Collection) : HandlerOutcome String × Collection :=
  match isTokenValid with
  | .error e => (.failure e, coll)
  | .ok tokenHasValidFormat =>
    if !tokenHasValidFormat then (.failure .invalidToken, coll)
    else
      match checkAuthentication with
      | .error _ => (.failure .invalidToken, coll)
      | .ok (MQTTAuthInfos, wasCached, wasTokenUpdated) =>
        if wasTokenUpdated then (.failure .updated, coll)
        else if wasCached then (.failure .alreadyExists, coll)
        else
          let verneMQACL := NewVerneMQACL MQTTAuthInfos.clientID
            MQTTAuthInfos.username MQTTAuthInfos.password
          match models.AddProfileACL coll verneMQACL with
          | .error _ => (.failure .invalidToken, coll)
          | .ok coll2 => (.success MQTTAuthInfos.clientID, coll2)

/-- The member-resolution loop of `router.AddGroupConversation`: for each
candidate handle, look up `mapping:<handle>` in Redis; a lookup error aborts
the whole request with `CodeInvalidJSON`; a missing mapping drops the handle;
a resolved `internalWaveUserID` is kept unless it equals the requester's own
clientID.  Order of the kept IDs follows the request order. -/
def resolveMembers (redis : String → RedisResult) (clientID : String) :
    List String → Except Code (List String)
  | [] => .ok []
  | member :: rest =>
    match redis member with
    | .err => .error .invalidJSON
    | .missing => resolveMembers redis clientID rest
    | .found internalWaveUserID =>
      if internalWaveUserID ≠ clientID then
        (resolveMembers redis clientID rest).map (internalWaveUserID :: ·)
      else resolveMembers redis clientID rest

/-- `router.AddGroupConversation`: check the token format, authenticate
(ignoring the cached/updated flags), decode the body, resolve the candidate
members through Redis, build the group record with the requester's clientID
appended to the resolved members, insert it into the group conversation
collection — the error of that insert is assigned to `err` but immediately
overwritten by the result of `UpdateProfilesWithGroupACL`, so a failed insert
is silently ignored — then grant the group ACLs; only a grant error (an
unmodelled driver failure) is reported, as `CodeInvalidToken`.

`generatedGroupID` is the fresh ID `NewGroupConversation` generates;
`groupInsertFails` models an infrastructure failure of the group insert.
Returns the handler outcome, the group conversation collection, and the ACL
collection. -/
def AddGroupConversation (isTokenValid : Except Code Bool)
    (checkAuthentication : Except Unit (MQTTAuthInfos × Bool × Bool))
    (redis : String → RedisResult) (body : Except Unit GroupConversationBody)
    (generatedGroupID : String) (groupInsertFails : Bool)
    (groupColl : List GroupConversation) (coll : Collection) :
    HandlerOutcome Unit × List GroupConversation × Collection :=
  match isTokenValid with
  | .error e => (.failure e, groupColl, coll)
  | .ok tokenHasValidFormat =>
    if !tokenHasValidFormat then (.failure .invalidToken, groupColl, coll)
    else
      match checkAuthentication with
      | .error _ => (.failure .invalidToken, groupColl, coll)
      | .ok (MQTTAuthInfos, _, _) =>
        match body with
        | .error _ => (.failure .invalidJSON, groupColl, coll)
        | .ok reqBody =>
          match resolveMembers redis MQTTAuthInfos.clientID reqBody.members with
          | .error code => (.failure code, groupColl, coll)
          | .ok tmp =>
            let groupConv := NewGroupConversation generatedGroupID reqBody.name
              (tmp ++ [MQTTAuthInfos.clientID])
            let groupColl2 :=
              match models.AddGroupConversation groupInsertFails groupColl groupConv with
              | .error _ => groupColl
              | .ok g => g
            match models.UpdateProfilesWithGroupACL coll groupConv with
            | .error _ => (.failure .invalidToken, groupColl2, coll)
            | .ok coll2 => (.success (), groupColl2, coll2)

/-- The mapping-collection loop of `router.GetMappingForUsers`: for each
requested userID, `HGet mapping:<userID> internalWaveUserID` with the error
discarded; whenever the value read back is nonempty, append a `Mapping`
entry. -/
def collectMappings (redis : String → RedisResult) :
    List String → List Mapping
  | [] => []
  | userID :: rest =>
    let internalWaveUserID := (redis userID).asString
    if internalWaveUserID ≠ "" then
      { originalUserID := userID, internalWaveUserID := internalWaveUserID } ::
        collectMappings redis rest
    else collectMappings redis rest

/-- `router.GetMappingForUsers`: check the token format, authenticate
(discarding everything but the error), decode the body, then answer with one
`Mapping` entry per requested userID whose Redis lookup reads back a nonempty
`internalWaveUserID`; lookup errors are discarded. -/
def GetMappingForUsers (isTokenValid : Except Code Bool)
    (checkAuthentication : Except Unit (MQTTAuthInfos × Bool × Bool))
    (redis : String → RedisResult) (body : Except Unit MappingRequestBody) :
    HandlerOutcome (List Mapping) :=
  match isTokenValid with
  | .error e => .failure e
  | .ok tokenHasValidFormat =>
    if !tokenHasValidFormat then .failure .invalidToken
    else
      match checkAuthentication with
      | .error _ => .failure .invalidToken
      | .ok _ =>
        match body with
        | .error _ => .failure .invalidJSON
        | .ok reqBody => .success (collectMappings redis reqBody.userIDs)

end router

/-- Direction of an ACL grant: the `publish_acl` or the `subscribe_acl`
array. -/
inductive Direction where
  | publish
  | subscribe
deriving DecidableEq, Repr

/-- One `$push` ACL grant: which client's record is targeted, which ACL array
is extended, and the topic pattern appended. -/
structure Grant where
  clientID : String
  direction : Direction
  pattern : String
deriving DecidableEq, Repr

/-- Apply one `$push` grant to the ACL collection (an `UpdateOne` on
`client_id = clientID` appending the pattern to the chosen array). -/
def applyGrant (coll : Collection) (g : Grant) : Collection :=
  updateOne coll g.clientID (fun r =>
    match g.direction with
    | .publish => { r with publish_acl := r.publish_acl ++ [g.pattern] }
    | .subscribe => { r with subscribe_acl := r.subscribe_acl ++ [g.pattern] })

/-- The sequence of `$push` grants `UpdateProfilesWithGroupACL` issues: for
each member in member-list order, a publish grant on
`GroupConversationTopicPath ++ groupID ++ "/" ++ memberID` and a subscribe
grant on `GroupConversationTopicPath ++ groupID ++ "/+"` — exactly the two
`$push` elements of the update document `pushGroupACL` sends for that member
(`UpdateProfilesWithGroupACL_eq_applyGrants` below proves that applying this
grant sequence is what the operation does to the collection). -/
def groupACLGrants (gc : GroupConversation) : List Grant :=
  gc.members.flatMap (fun userID =>
    [⟨userID, .publish,
       GroupConversationTopicPath ++ gc.groupConversationID ++ "/" ++ userID⟩,
     ⟨userID, .subscribe,
       GroupConversationTopicPath ++ gc.groupConversationID ++ "/+"⟩])

/-- Number of documents of the ACL collection whose `client_id` is `cid`. -/
def countClient (coll : Collection) (cid : String) : Nat :=
  (coll.filter (fun r => r.client_id == cid)).length

/-- `UpdateOne` is a silent no-op when no document matches the filter. -/
theorem updateOne_of_forall_ne (coll : Collection) (uid : String)
    (f : VerneMQACL → VerneMQACL) (h : ∀ r ∈ coll, r.client_id ≠ uid) :
    updateOne coll uid f = coll := by
  induction coll with
  | nil => rfl
  | cons r rs ih =>
    simp only [updateOne]
    rw [if_neg (h r (List.mem_cons_self r rs)),
      ih (fun p hp => h p (List.mem_cons_of_mem r hp))]

/-- `UpdateOne` rewrites the first matching document and nothing else. -/
theorem updateOne_append_first (pre : Collection) (r : VerneMQACL)
    (post : Collection) (uid : String) (f : VerneMQACL → VerneMQACL)
    (hpre : ∀ p ∈ pre, p.client_id ≠ uid) (hr : r.client_id = uid) :
    updateOne (pre ++ r :: post) uid f = pre ++ f r :: post := by
  induction pre with
  | nil => simp only [List.nil_append, updateOne, if_pos hr]
  | cons p ps ih =>
    have hne := hpre p (List.mem_cons_self p ps)
    have ih2 := ih (fun q hq => hpre q (List.mem_cons_of_mem p hq))
    simp only [List.cons_append, updateOne]
    rw [if_neg hne]
    exact congrArg (p :: ·) ih2

/-- Two successive `UpdateOne`s on the same filter compose, provided the
first update does not change the filtered field. -/
theorem updateOne_updateOne (coll : Collection) (uid : String)
    (f g : VerneMQACL → VerneMQACL) (hf : ∀ r, (f r).client_id = r.client_id) :
    updateOne (updateOne coll uid f) uid g
      = updateOne coll uid (fun r => g (f r)) := by
  induction coll with
  | nil => rfl
  | cons r rs ih =>
    simp only [updateOne]
    by_cases h : r.client_id = uid
    · rw [if_pos h]
      simp only [updateOne, if_pos ((hf r).trans h), if_pos h]
    · rw [if_neg h]
      simp only [updateOne, if_neg h, ih]

/-- The publish/subscribe grant pair of one member equals that member's
single two-`$push` update document. -/
theorem applyGrant_pair (coll : Collection) (gid userID : String) :
    applyGrant
        (applyGrant coll
          ⟨userID, .publish, GroupConversationTopicPath ++ gid ++ "/" ++ userID⟩)
        ⟨userID, .subscribe, GroupConversationTopicPath ++ gid ++ "/+"⟩
      = updateOne coll userID (models.pushGroupACL gid userID) := by
  simp only [applyGrant]
  rw [updateOne_updateOne]
  · rfl
  · intro r
    rfl

/-- Folding the grant sequence over the collection is exactly the member
loop of `UpdateProfilesWithGroupACL`. -/
theorem foldl_applyGrant_bind (gid : String) (members : List String)
    (coll : Collection) :
    (members.flatMap (fun userID =>
        [⟨userID, .publish, GroupConversationTopicPath ++ gid ++ "/" ++ userID⟩,
         ⟨userID, .subscribe, GroupConversationTopicPath ++ gid ++ "/+"⟩])).foldl
        applyGrant coll
      = members.foldl
          (fun c uid => updateOne c uid (models.pushGroupACL gid uid)) coll := by
  induction members generalizing coll with
  | nil => rfl
  | cons m ms ih =>
    simp only [List.flatMap_cons, List.foldl_append, List.foldl_cons, List.foldl_nil]
    rw [applyGrant_pair, ih]

/-- `UpdateProfilesWithGroupACL` applies exactly the grant sequence
`groupACLGrants` to the collection. -/
theorem UpdateProfilesWithGroupACL_eq_applyGrants (coll : Collection)
    (gc : GroupConversation) :
    models.UpdateProfilesWithGroupACL coll gc
      = .ok ((groupACLGrants gc).foldl applyGrant coll) := by
  simp only [models.UpdateProfilesWithGroupACL, groupACLGrants,
    foldl_applyGrant_bind]

/-- C1.  Calling `AddProfileACL` twice with the same clientID yields success
on the first call and a `Conflict` error on the second, and after both calls
the store retains exactly one ACL record for that clientID. -/
theorem AddProfileACL_second_call_conflicts (coll : Collection)
    (acl acl2 : VerneMQACL)
    (hfresh : ∀ r ∈ coll, r.client_id ≠ acl.client_id)
    (hsame : acl2.client_id = acl.client_id) :
    models.AddProfileACL coll acl = .ok (coll ++ [acl]) ∧
    models.AddProfileACL (coll ++ [acl]) acl2 = .error .conflict ∧
    countClient (coll ++ [acl]) acl.client_id = 1 := by
  refine ⟨?_, ?_, ?_⟩
  · rw [models.AddProfileACL, insertOne, if_neg]
    rintro ⟨r, hr, he⟩
    exact hfresh r hr he
  · rw [models.AddProfileACL, insertOne, if_pos]
    exact ⟨acl, List.mem_append_right _ (List.mem_singleton_self acl), hsame.symm⟩
  · simp only [countClient, List.filter_append, List.length_append]
    have h1 : coll.filter (fun r => r.client_id == acl.client_id) = [] := by
      rw [List.filter_eq_nil_iff]
      intro a ha
      simpa using hfresh a ha
    have h2 : [acl].filter (fun r => r.client_id == acl.client_id) = [acl] := by
      simp
    rw [h1, h2]
    rfl

/-- C1 witness: a concrete double seeding for clientID `"c1"`. -/
theorem AddProfileACL_second_call_conflicts_witness :
    models.AddProfileACL [] (NewVerneMQACL "c1" "u1" "h1")
      = .ok [NewVerneMQACL "c1" "u1" "h1"] ∧
    models.AddProfileACL [NewVerneMQACL "c1" "u1" "h1"] (NewVerneMQACL "c1" "u1" "h2")
      = .error .conflict ∧
    countClient [NewVerneMQACL "c1" "u1" "h1"] "c1" = 1 :=
  AddProfileACL_second_call_conflicts [] (NewVerneMQACL "c1" "u1" "h1")
    (NewVerneMQACL "c1" "u1" "h2") (by simp) rfl

/-- C7.  `UpdatePassHash` with a clientID that has no existing ACL record is
a silent no-op: it modifies no record and returns no error. -/
theorem UpdatePassHash_missing_clientID_noop (coll : Collection)
    (userID newPasshash : String)
    (habsent : ∀ r ∈ coll, r.client_id ≠ userID) :
    models.UpdatePassHash coll userID newPasshash = .ok coll := by
  rw [models.UpdatePassHash, updateOne_of_forall_ne coll userID _ habsent]

/-- C7 witness: updating the password hash of the unknown clientID `"c1"`
leaves a store holding only `"c2"` untouched, with no error. -/
theorem UpdatePassHash_missing_clientID_noop_witness :
    models.UpdatePassHash [NewVerneMQACL "c2" "u2" "h2"] "c1" "newhash"
      = .ok [NewVerneMQACL "c2" "u2" "h2"] :=
  UpdatePassHash_missing_clientID_noop [NewVerneMQACL "c2" "u2" "h2"] "c1"
    "newhash" (by simp [NewVerneMQACL])

/-- C8.  The `$push`-based grant `AuthorizePublishing` is not idempotent:
two calls with the same clientID and the same topic pattern append the
pattern twice, so the client's `publish_acl` holds the pattern at least
twice and is no longer duplicate-free. -/
theorem AuthorizePublishing_twice_duplicates (pre post : Collection)
    (r : VerneMQACL) (topic : String)
    (hpre : ∀ p ∈ pre, p.client_id ≠ r.client_id) :
    models.AuthorizePublishing (pre ++ r :: post) r.client_id topic
      = .ok (pre ++ { r with publish_acl := r.publish_acl ++ [topic] } :: post) ∧
    models.AuthorizePublishing
        (pre ++ { r with publish_acl := r.publish_acl ++ [topic] } :: post)
        r.client_id topic
      = .ok (pre ++
          { r with publish_acl := r.publish_acl ++ [topic] ++ [topic] } :: post) ∧
    2 ≤ (r.publish_acl ++ [topic] ++ [topic]).count topic ∧
    ¬ (r.publish_acl ++ [topic] ++ [topic]).Nodup := by
  have hcount : 2 ≤ (r.publish_acl ++ [topic] ++ [topic]).count topic := by
    simp [List.count_append]
  refine ⟨?_, ?_, hcount, ?_⟩
  · rw [models.AuthorizePublishing,
      updateOne_append_first pre r post r.client_id _ hpre rfl]
  · rw [models.AuthorizePublishing,
      updateOne_append_first pre { r with publish_acl := r.publish_acl ++ [topic] }
        post r.client_id _ hpre rfl]
  · intro hnodup
    have := List.nodup_iff_count_le_one.mp hnodup topic
    omega

/-- C8 witness: granting topic `"t"` twice to the freshly seeded client
`"c1"` leaves `"t"` twice in its publish ACL. -/
theorem AuthorizePublishing_twice_duplicates_witness :
    models.AuthorizePublishing [NewVerneMQACL "c1" "u1" "h1"] "c1" "t"
      = .ok [⟨"c1", "u1", "h1", ["t"], []⟩] ∧
    models.AuthorizePublishing [⟨"c1", "u1", "h1", ["t"], []⟩] "c1" "t"
      = .ok [⟨"c1", "u1", "h1", ["t", "t"], []⟩] ∧
    2 ≤ (["t", "t"] : List String).count "t" ∧
    ¬ (["t", "t"] : List String).Nodup :=
  AuthorizePublishing_twice_duplicates [] [] (NewVerneMQACL "c1" "u1" "h1") "t"
    (by simp)

/-- C2.  In the `AddVerneMQACL` flow (valid token format, authentication
succeeded), ACL seeding happens if and only if the outcome is Fresh
(`wasCached` and `wasTokenUpdated` both unset): any change to the ACL
collection implies the Fresh outcome; an Updated outcome returns the
`CodeUpdated` failure and a Cached outcome the `CodeAlreadyExists` failure,
both leaving the collection unchanged; a Fresh outcome for a clientID with no
existing record seeds exactly the new default ACL record and answers with a
success response; and every failure code is distinct from the success
response returned for Fresh. -/
theorem AddVerneMQACL_seeds_iff_fresh (infos : MQTTAuthInfos)
    (wasCached wasTokenUpdated : Bool) (coll : Collection) :
    ((router.AddVerneMQACL (.ok true) (.ok (infos, wasCached, wasTokenUpdated))
          coll).2 ≠ coll →
        wasCached = false ∧ wasTokenUpdated = false) ∧
    (wasTokenUpdated = true →
        router.AddVerneMQACL (.ok true) (.ok (infos, wasCached, wasTokenUpdated))
            coll
          = (.failure .updated, coll)) ∧
    (wasTokenUpdated = false → wasCached = true →
        router.AddVerneMQACL (.ok true) (.ok (infos, wasCached, wasTokenUpdated))
            coll
          = (.failure .alreadyExists, coll)) ∧
    (wasTokenUpdated = false → wasCached = false →
        (∀ r ∈ coll, r.client_id ≠ infos.clientID) →
        router.AddVerneMQACL (.ok true) (.ok (infos, wasCached, wasTokenUpdated))
            coll
          = (.success infos.clientID,
             coll ++ [NewVerneMQACL infos.clientID infos.username infos.password])) ∧
    (∀ code : Code,
        (HandlerOutcome.failure code : HandlerOutcome String)
          ≠ .success infos.clientID) := by
  refine ⟨?_, ?_, ?_, ?_, fun code h => by cases h⟩
  · intro hchange
    cases wasTokenUpdated with
    | true => simp [router.AddVerneMQACL] at hchange
    | false =>
      cases wasCached with
      | true => simp [router.AddVerneMQACL] at hchange
      | false => exact ⟨rfl, rfl⟩
  · intro hu
    subst hu
    simp [router.AddVerneMQACL]
  · intro hu hc
    subst hu
    subst hc
    simp [router.AddVerneMQACL]
  · intro hu hc hfresh
    subst hu
    subst hc
    have hins : models.AddProfileACL coll
        (NewVerneMQACL infos.clientID infos.username infos.password)
        = .ok (coll ++ [NewVerneMQACL infos.clientID infos.username infos.password]) := by
      rw [models.AddProfileACL, insertOne, if_neg]
      rintro ⟨r, hr, he⟩
      exact hfresh r hr (by simpa [NewVerneMQACL] using he)
    simp [router.AddVerneMQACL, hins]

/-- C2 witness: a Fresh outcome for clientID `"c1"` on an empty store seeds
exactly the default record and answers with success. -/
theorem AddVerneMQACL_seeds_iff_fresh_witness :
    router.AddVerneMQACL (.ok true)
        (.ok (⟨"c1", "u1", "p1"⟩, false, false)) ([] : Collection)
      = (.success "c1", [NewVerneMQACL "c1" "u1" "p1"]) :=
  (AddVerneMQACL_seeds_iff_fresh ⟨"c1", "u1", "p1"⟩ false false []).2.2.2.1
    rfl rfl (by simp)

/-- C6 (code bug).  When seeding hits an already-provisioned clientID — the
`Conflict` case of `AddProfileACL` — the handler does NOT treat it as a
non-fatal "already provisioned" signal: it maps the error to
`CodeInvalidToken`, a caller-visible invalid-credential failure.  Concretely,
a Fresh authentication outcome for clientID `"c1"` against a store already
holding an ACL record for `"c1"` makes `AddVerneMQACL` answer with the
`CodeInvalidToken` failure. -/
theorem AddVerneMQACL_conflict_surfaces_invalidToken :
    router.AddVerneMQACL (.ok true) (.ok (⟨"c1", "u1", "p1"⟩, false, false))
        [⟨"c1", "u0", "h0", [], []⟩]
      = (.failure .invalidToken, [⟨"c1", "u0", "h0", [], []⟩]) := by
  decide

/-- The resolution loop never keeps the requester's own clientID: every
resolved ID equal to it is skipped. -/
theorem resolveMembers_not_mem (redis : String → RedisResult) (clientID : String) :
    ∀ (members tmp : List String),
      router.resolveMembers redis clientID members = .ok tmp → clientID ∉ tmp := by
  intro members
  induction members with
  | nil =>
    intro tmp h
    simp only [router.resolveMembers] at h
    cases h
    simp
  | cons m rest ih =>
    intro tmp h
    simp only [router.resolveMembers] at h
    cases hr : redis m with
    | err =>
      rw [hr] at h
      exact Except.noConfusion (h : Except.error Code.invalidJSON = .ok tmp)
    | missing =>
      rw [hr] at h
      exact ih tmp h
    | found v =>
      rw [hr] at h
      have h2 : (if v ≠ clientID then
            Except.map (fun x => v :: x) (router.resolveMembers redis clientID rest)
          else router.resolveMembers redis clientID rest) = .ok tmp := h
      by_cases hv : v ≠ clientID
      · rw [if_pos hv] at h2
        cases hrec : router.resolveMembers redis clientID rest with
        | error e =>
          rw [hrec] at h2
          exact Except.noConfusion (h2 : Except.error e = .ok tmp)
        | ok t =>
          rw [hrec] at h2
          simp only [Except.map, Except.ok.injEq] at h2
          subst h2
          intro hmem
          rcases List.mem_cons.mp hmem with he | ht
          · exact hv he.symm
          · exact ih t hrec ht
      · rw [if_neg hv] at h2
        exact ih tmp h2

/-- C3 counterexample: requester `"u1"`, two distinct handles `"h1"`, `"h2"`
both resolving to `"u2"`; the persisted member list is
`["u2", "u2", "u1"]` — the shared clientID appears twice, so the member list
of the resulting group conversation is not duplicate-free. -/
theorem AddGroupConversation_duplicate_members_counterexample :
    (router.AddGroupConversation (.ok true) (.ok (⟨"u1", "n", "p"⟩, false, false))
          (fun h => if h = "h1" then .found "u2"
            else if h = "h2" then .found "u2" else .missing)
          (.ok ⟨"grp", ["h1", "h2"]⟩) "g1" false [] []).2.1
        = [⟨"g1", "grp", ["u2", "u2", "u1"]⟩] ∧
      ¬ (["u2", "u2", "u1"] : List String).Nodup := by
  refine ⟨by decide, by decide⟩

/-- C3 (amended).  The member-resolution loop of `AddGroupConversation`
deduplicates only against the requester: the persisted member list contains
the requester's clientID exactly once (resolved occurrences of it are
excluded and it is appended once at the end), but two distinct candidate
handles resolving to the same non-requester clientID each contribute an
entry, so the list may contain duplicates. -/
theorem AddGroupConversation_requester_exactly_once (infos : MQTTAuthInfos)
    (wasCached wasTokenUpdated : Bool) (redis : String → RedisResult)
    (reqBody : GroupConversationBody) (generatedGroupID : String)
    (groupColl : List GroupConversation) (coll : Collection) (tmp : List String)
    (hres : router.resolveMembers redis infos.clientID reqBody.members = .ok tmp) :
    (router.AddGroupConversation (.ok true)
          (.ok (infos, wasCached, wasTokenUpdated)) redis (.ok reqBody)
          generatedGroupID false groupColl coll).2.1
        = groupColl ++ [NewGroupConversation generatedGroupID reqBody.name
            (tmp ++ [infos.clientID])] ∧
      (tmp ++ [infos.clientID]).count infos.clientID = 1 := by
  constructor
  · simp [router.AddGroupConversation, hres, models.AddGroupConversation,
      models.UpdateProfilesWithGroupACL]
  · have hnot := resolveMembers_not_mem redis infos.clientID reqBody.members tmp hres
    simp [List.count_append, List.count_eq_zero.mpr hnot]

/-- C3 witness: requester `"u1"` with the single handle `"a"` resolving to
`"u2"`; the persisted member list is `["u2", "u1"]` and `"u1"` appears
exactly once. -/
theorem AddGroupConversation_requester_exactly_once_witness :
    (router.AddGroupConversation (.ok true) (.ok (⟨"u1", "n", "p"⟩, false, false))
          (fun h => if h = "a" then .found "u2" else .missing)
          (.ok ⟨"grp", ["a"]⟩) "g1" false [] []).2.1
        = [] ++ [NewGroupConversation "g1" "grp" (["u2"] ++ ["u1"])] ∧
      ((["u2"] : List String) ++ ["u1"]).count "u1" = 1 :=
  AddGroupConversation_requester_exactly_once ⟨"u1", "n", "p"⟩ false false
    (fun h => if h = "a" then .found "u2" else .missing) ⟨"grp", ["a"]⟩ "g1"
    [] [] ["u2"] rfl

/-- C4.  Requester `"u1"`, candidate handles `["a", "b", "ghost"]` with
`"ghost"` unmapped, `"a" → "u2"`, and `"b" → "u1"` (the requester itself):
the created group conversation has member list `["u2", "u1"]` — member set
exactly `{"u1", "u2"}` — the unresolved handle is dropped without error, the
requester's duplicate is excluded, and the requester is present; the handler
answers with success. -/
theorem AddGroupConversation_drops_unknown_and_requester_dup :
    router.AddGroupConversation (.ok true) (.ok (⟨"u1", "n", "p"⟩, false, false))
        (fun h => if h = "a" then .found "u2"
          else if h = "b" then .found "u1" else .missing)
        (.ok ⟨"grp", ["a", "b", "ghost"]⟩) "g1" false [] []
      = (.success (), [⟨"g1", "grp", ["u2", "u1"]⟩], []) ∧
    (["u2", "u1"] : List String).toFinset = {"u1", "u2"} := by
  refine ⟨by decide, by decide⟩

/-- C5.  For a group with members `["u1", "u2"]` and groupID `"g1"`,
`UpdateProfilesWithGroupACL` issues exactly two publish grants — pattern
`<prefix>g1/u1` to `"u1"` and `<prefix>g1/u2` to `"u2"` — and exactly two
subscribe grants — pattern `<prefix>g1/+` to each member — one
publish/subscribe pair per member; applying the operation to a store holding
the two members' records appends exactly those patterns to their ACL
arrays. -/
theorem UpdateProfilesWithGroupACL_fanout :
    groupACLGrants ⟨"g1", "n", ["u1", "u2"]⟩
        = [⟨"u1", .publish, GroupConversationTopicPath ++ "g1/u1"⟩,
           ⟨"u1", .subscribe, GroupConversationTopicPath ++ "g1/+"⟩,
           ⟨"u2", .publish, GroupConversationTopicPath ++ "g1/u2"⟩,
           ⟨"u2", .subscribe, GroupConversationTopicPath ++ "g1/+"⟩] ∧
    (groupACLGrants ⟨"g1", "n", ["u1", "u2"]⟩).filter
        (fun g => g.direction == .publish)
      = [⟨"u1", .publish, GroupConversationTopicPath ++ "g1/u1"⟩,
         ⟨"u2", .publish, GroupConversationTopicPath ++ "g1/u2"⟩] ∧
    (groupACLGrants ⟨"g1", "n", ["u1", "u2"]⟩).filter
        (fun g => g.direction == .subscribe)
      = [⟨"u1", .subscribe, GroupConversationTopicPath ++ "g1/+"⟩,
         ⟨"u2", .subscribe, GroupConversationTopicPath ++ "g1/+"⟩] ∧
    models.UpdateProfilesWithGroupACL
        [⟨"u1", "n1", "h1", [], []⟩, ⟨"u2", "n2", "h2", [], []⟩]
        ⟨"g1", "n", ["u1", "u2"]⟩
      = .ok [⟨"u1", "n1", "h1", [GroupConversationTopicPath ++ "g1/u1"],
               [GroupConversationTopicPath ++ "g1/+"]⟩,
             ⟨"u2", "n2", "h2", [GroupConversationTopicPath ++ "g1/u2"],
               [GroupConversationTopicPath ++ "g1/+"]⟩] := by
  refine ⟨by decide, by decide, by decide, rfl⟩

/-- C9.  In the `AddGroupConversation` handler the error returned by
persisting the group conversation record is discarded — the `err` variable is
immediately overwritten by the ACL-grant call's result — so when the persist
fails (the group collection stays unchanged) the ACL grants are still applied
and the handler answers with a success response. -/
theorem AddGroupConversation_discards_persist_error (infos : MQTTAuthInfos)
    (wasCached wasTokenUpdated : Bool) (redis : String → RedisResult)
    (reqBody : GroupConversationBody) (generatedGroupID : String)
    (groupColl : List GroupConversation) (coll : Collection) (tmp : List String)
    (hres : router.resolveMembers redis infos.clientID reqBody.members = .ok tmp) :
    router.AddGroupConversation (.ok true) (.ok (infos, wasCached, wasTokenUpdated))
        redis (.ok reqBody) generatedGroupID true groupColl coll
      = (.success (), groupColl,
         (groupACLGrants (NewGroupConversation generatedGroupID reqBody.name
            (tmp ++ [infos.clientID]))).foldl applyGrant coll) := by
  simp [router.AddGroupConversation, hres, models.AddGroupConversation,
    UpdateProfilesWithGroupACL_eq_applyGrants]

/-- C9 witness: the group insert fails on an empty request; nothing is
persisted, yet the handler reports success. -/
theorem AddGroupConversation_discards_persist_error_witness :
    router.AddGroupConversation (.ok true) (.ok (⟨"u1", "n", "p"⟩, false, false))
        (fun _ => .missing) (.ok ⟨"grp", []⟩) "g1" true [] []
      = (.success (), [], []) :=
  AddGroupConversation_discards_persist_error ⟨"u1", "n", "p"⟩ false false
    (fun _ => .missing) ⟨"grp", []⟩ "g1" [] [] [] rfl

/-- The mapping-collection loop keeps, in request order, exactly the
requested userIDs whose lookup reads back a nonempty `internalWaveUserID`,
each paired with that value. -/
theorem collectMappings_eq_filter_map (redis : String → RedisResult)
    (userIDs : List String) :
    router.collectMappings redis userIDs
      = (userIDs.filter (fun u => (redis u).asString != "")).map
          (fun u => ⟨u, (redis u).asString⟩) := by
  induction userIDs with
  | nil => rfl
  | cons u rest ih =>
    by_cases hu : (redis u).asString = ""
    · simp [router.collectMappings, List.filter_cons, hu, ih]
    · simp [router.collectMappings, List.filter_cons, hu, ih]

/-- C10.  `GetMappingForUsers` (valid token, authentication succeeded, body
decoded) answers with one mapping entry per requested userID whose cache
lookup yields a nonempty `internalWaveUserID`, in request order; userIDs with
a missing or empty mapping, and lookup errors (which read back as the empty
string), are silently omitted and never fail the request. -/
theorem GetMappingForUsers_nonempty_in_order (auth : MQTTAuthInfos × Bool × Bool)
    (redis : String → RedisResult) (reqBody : MappingRequestBody) :
    router.GetMappingForUsers (.ok true) (.ok auth) redis (.ok reqBody)
      = .success ((reqBody.userIDs.filter (fun u => (redis u).asString != "")).map
          (fun u => ⟨u, (redis u).asString⟩)) := by
  simp [router.GetMappingForUsers, collectMappings_eq_filter_map]

end Hermes
